import Mathlib

/-!
Shallow embedding of src/pslse/psl.c — the PSLSE session-orchestration core
for a single AFU.

The file psl.c owns the session/client state machine; the job, MMIO and
command subsystems, the socket primitives (get_bytes / put_bytes / poll) and
the AFU event transport live in other files of the repository and are
modelled here as environment inputs (the results psl.c observes from them)
together with an explicit trace of the calls psl.c makes into them
(`Effect`).  Machine integers that can go negative in the C code
(`idle_cycles`, `valid`, file descriptors, poll results) are modelled as
`Int`; the counters never approach 2^31 so overflow is not modelled.
-/

namespace Pslse

/-- Modelled from the spec: the client-to-session command byte constants
`PSLSE_DETACH` … `PSLSE_MMIO_READ32` are defined in common/pslse.h, which is
not under src/.  The dispatch chain in psl.c (lines 140-164) only requires
the nine values to be pairwise distinct process-wide constants, which the
spec states in section 6; the concrete numerals here are arbitrary distinct
representatives. -/
def PSLSE_DETACH : Nat := 2

def PSLSE_ATTACH : Nat := 3

def PSLSE_MEM_FAILURE : Nat := 4

def PSLSE_MEM_SUCCESS : Nat := 5

def PSLSE_MMIO_MAP : Nat := 6

def PSLSE_MMIO_WRITE64 : Nat := 7

def PSLSE_MMIO_READ64 : Nat := 8

def PSLSE_MMIO_WRITE32 : Nat := 9

def PSLSE_MMIO_READ32 : Nat := 10

/-- Modelled from the spec: session lifecycle states {RUNNING, IDLE, DONE}
(section 3); the enumerators live in headers not under src/.  psl.c only
compares `psl->state` against `PSLSE_IDLE` and `PSLSE_DONE`, and sets
`client->job->state = PSLSE_DONE`; distinct numerals suffice. -/
def PSLSE_IDLE : Nat := 11

def PSLSE_DONE : Nat := 12

def PSLSE_RUNNING : Nat := 13

/-- Modelled from the spec: the terminal state of an in-flight memory access
(`MEM_DONE` in cmd.h, not under src/); psl.c lines 87-89 compare and assign
it. -/
def MEM_DONE : Nat := 30

/-- Modelled from the spec: the "address error" response code
`PSL_RESPONSE_AERROR` (psl_interface headers, not under src/); psl.c line 88
assigns it. -/
def PSL_RESPONSE_AERROR : Nat := 1

/-- Modelled from the spec: the configured maximum of the idle-cycle
countdown, macro `PSL_IDLE_CYCLES` from psl.h which is not under src/.  The
spec describes it as a positive grace period of clock cycles (sections 3
and 8); the concrete value is not given, so theorems are stated over an
arbitrary `idleMax` and this representative value is used only for closed
evaluations. -/
def PSL_IDLE_CYCLES : Nat := 20

/-- In-flight memory access record (`struct cmd_event`, owned by the command
subsystem, referenced by the client); only the two fields psl.c touches
(lines 85-91) are modelled. -/
structure CmdEvent where
  state : Nat
  resp : Nat
deriving DecidableEq, Repr

/-- Job-control context (`client->job`); psl.c touches only its `state`
field (line 95). -/
structure JobEvent where
  state : Nat
deriving DecidableEq, Repr

/-- Client slot record (`struct client`).  The records behind the
`mem_access` and `job` pointers are modelled inline (an `Option` is `none`
exactly when the C pointer is NULL); `mmio_access` is modelled as the
non-NULL-ness of the pointer since psl.c never dereferences it. -/
structure Client where
  fd : Int
  ip : Option (List Char)
  valid : Int
  idle_cycles : Int
  mem_access : Option CmdEvent
  mmio_access : Bool
  job : Option JobEvent
  context : Nat
deriving DecidableEq, Repr

/-- Trace of the calls psl.c makes into the socket layer and the three
subsystems. -/
inductive Effect where
  | signalClock
  | sleep
  | putByte (fd : Int) (b : Nat)
  | addJob (wed : Nat)
  | cmdAerror
  | cmdMemReturn
  | mmioMap
  | mmioAccess (rnw : Bool) (dw : Bool)
deriving DecidableEq, Repr

/-- Result of `_free` (psl.c lines 69-98): the updated client record plus
the final content of the `cmd_event` record that was referenced by
`client->mem_access` (the reference itself is cleared, but the record stays
owned by the command subsystem, so its final content is returned
separately).  The job context pointer is not cleared by `_free`, so its
updated content stays inline in the client. -/
structure FreeResult where
  client : Client
  memFinal : Option CmdEvent
deriving DecidableEq, Repr

/-- `_free` (psl.c lines 69-98): close the socket, clear fd/idle/ip, force a
non-terminal in-flight memory access to `MEM_DONE` with an address-error
response, clear both access references, mark the job context `PSLSE_DONE`,
and invalidate the slot.  The debug call, info message and lock
acquire/release have no modelled state. -/
def freeClient (c : Client) : FreeResult :=
  let memFinal := c.mem_access.map (fun m =>
    if m.state ≠ MEM_DONE then { m with resp := PSL_RESPONSE_AERROR, state := MEM_DONE } else m)
  { client := { c with
      fd := -1
      idle_cycles := 0
      ip := none
      mem_access := none
      mmio_access := false
      job := c.job.map (fun j => { j with state := PSLSE_DONE })
      valid := 0 }
    memFinal := memFinal }

/-- Result of `_attach`: the (possibly reset) session idle countdown, the
local `ack` variable, and the trace of subsystem/socket calls. -/
structure AttachResult where
  pslIdle : Int
  ack : Nat
  effects : List Effect
deriving DecidableEq, Repr

/-- `_attach` (psl.c lines 42-66).  `wedRead` is the result of
`get_bytes(client->fd, 8, 10000)` interpreted via `le64toh` (`none` when the
read fails); `jobAccept` is whether `add_job(psl->job, PSL_JOB_START, wed)`
returned non-NULL.  `ack` starts as `PSLSE_DETACH`; a failed read jumps to
`attach_done`; a successful `add_job` resets the session idle countdown and
flips `ack` to `PSLSE_ATTACH`; exactly one `put_bytes(client->fd, 1, &ack)`
runs at `attach_done`. -/
def attach (idleMax : Nat) (pslIdle : Int) (fd : Int)
    (wedRead : Option Nat) (jobAccept : Bool) : AttachResult :=
  match wedRead with
  | none => ⟨pslIdle, PSLSE_DETACH, [Effect.putByte fd PSLSE_DETACH]⟩
  | some wed =>
    if jobAccept then
      ⟨(idleMax : Int), PSLSE_ATTACH, [Effect.addJob wed, Effect.putByte fd PSLSE_ATTACH]⟩
    else
      ⟨pslIdle, PSLSE_DETACH, [Effect.addJob wed, Effect.putByte fd PSLSE_DETACH]⟩

/-- Per-client environment for one `_handle_client` pass: the results psl.c
observes from poll, the sockets and the MMIO subsystem. -/
structure ClientEnv where
  pollIn : Bool
  readByte : Option Nat
  mmioDone : Bool
  attachWed : Option Nat
  attachJobAccept : Bool
  mmioHandle : Bool
deriving Repr

/-- Result of `_handle_client` / one client step of the scheduler loop. -/
structure HCResult where
  pslIdle : Int
  client : Client
  effects : List Effect
deriving DecidableEq, Repr

/-- MMIO-done check at the top of `_handle_client` (psl.c lines 124-127): an
outstanding MMIO access resets the client idle countdown and the reference
is replaced by the result of `handle_mmio_done`. -/
def mmioDonePhase (idleMax : Nat) (c : Client) (env : ClientEnv) : Client :=
  if c.mmio_access then { c with idle_cycles := (idleMax : Int), mmio_access := env.mmioDone }
  else c

/-- Dispatch of one successfully read command byte (psl.c lines 140-169):
the chain of independent `if` comparisons against the nine command
constants, the `mmio` local collecting a `handle_mmio` result, and the final
unconditional reset of the client idle countdown (line 169).  None of these
lines consults `client->valid`. -/
def dispatchByte (idleMax : Nat) (pslIdle : Int) (c : Client) (env : ClientEnv)
    (b : Nat) : HCResult :=
  let c := if b = PSLSE_DETACH then { c with idle_cycles := (idleMax : Int), valid := -1 } else c
  let att := if b = PSLSE_ATTACH then
               some (attach idleMax pslIdle c.fd env.attachWed env.attachJobAccept)
             else none
  let pslIdle := match att with | some a => a.pslIdle | none => pslIdle
  let attEffs := match att with | some a => a.effects | none => []
  let c := if b = PSLSE_MEM_FAILURE ∨ b = PSLSE_MEM_SUCCESS then { c with mem_access := none } else c
  let memEffs :=
    if b = PSLSE_MEM_FAILURE then [Effect.cmdAerror]
    else if b = PSLSE_MEM_SUCCESS then [Effect.cmdMemReturn]
    else []
  let mapEffs := if b = PSLSE_MMIO_MAP then [Effect.mmioMap] else []
  let req : Option (Bool × Bool) :=
    if b = PSLSE_MMIO_WRITE64 then some (false, true)
    else if b = PSLSE_MMIO_READ64 then some (true, true)
    else if b = PSLSE_MMIO_WRITE32 then some (false, false)
    else if b = PSLSE_MMIO_READ32 then some (true, false)
    else none
  let mmioEffs := match req with | some (r, d) => [Effect.mmioAccess r d] | none => []
  let c := if req.isSome && env.mmioHandle then { c with mmio_access := true } else c
  let c := { c with idle_cycles := (idleMax : Int) }
  ⟨pslIdle, c, attEffs ++ memEffs ++ mapEffs ++ mmioEffs⟩

/-- `_handle_client` (psl.c lines 116-171): MMIO-done check, poll, one-byte
read (failure frees the client immediately and returns), then byte
dispatch. -/
def handleClient (idleMax : Nat) (pslIdle : Int) (c : Client) (env : ClientEnv) : HCResult :=
  let c := mmioDonePhase idleMax c env
  if env.pollIn then
    match env.readByte with
    | none => ⟨pslIdle, (freeClient c).client, []⟩
    | some b => dispatchByte idleMax pslIdle c env b
  else ⟨pslIdle, c, []⟩

/-- One client's slice of the scheduler loop body (psl.c lines 226-242):
skip an invalid slot, run `_handle_client`, then either release a DETACHING
client whose countdown is zero (one DETACH acknowledgement byte under the
lock, then `_free`, then `continue`), or decrement a nonzero countdown and
let command-subsystem activity (`client_cmd`) reset it. -/
def clientStep (idleMax : Nat) (pslIdle : Int) (c : Client) (env : ClientEnv)
    (cmdActive : Bool) : HCResult :=
  if c.valid = 0 then ⟨pslIdle, c, []⟩
  else
    let r := handleClient idleMax pslIdle c env
    if r.client.valid < 0 ∧ r.client.idle_cycles = 0 then
      ⟨r.pslIdle, (freeClient r.client).client,
        r.effects ++ [Effect.putByte r.client.fd PSLSE_DETACH]⟩
    else
      let c2 := if r.client.idle_cycles ≠ 0 then
                  { r.client with idle_cycles := r.client.idle_cycles - 1 }
                else r.client
      let c3 := if cmdActive then { c2 with idle_cycles := (idleMax : Int) } else c2
      ⟨r.pslIdle, c3, r.effects⟩

/-- Result of the client for-loop of one scheduler iteration. -/
structure PhaseResult where
  pslIdle : Int
  clients : List Client
  effects : List Effect
deriving DecidableEq, Repr

/-- The client for-loop (psl.c lines 226-242), threading the session idle
countdown (which `_attach` may reset) through the slots in order; `cenv i`
and `ccmd i` are the environment and the `client_cmd(psl->cmd, i)` result
for slot `i`. -/
def clientPhase (idleMax : Nat) (pslIdle : Int) (cs : List Client)
    (cenv : Nat → ClientEnv) (ccmd : Nat → Bool) (i : Nat) : PhaseResult :=
  match cs with
  | [] => ⟨pslIdle, [], []⟩
  | c :: rest =>
    let r := clientStep idleMax pslIdle c (cenv i) (ccmd i)
    let rr := clientPhase idleMax r.pslIdle rest cenv ccmd (i + 1)
    ⟨rr.pslIdle, r.client :: rr.clients, r.effects ++ rr.effects⟩

/-- Session record (`struct psl`); only the fields the loop body reads or
writes are modelled (`stopped` is the local flag of `_psl_loop` that
persists across iterations, so it is carried here). -/
structure Psl where
  state : Nat
  idle_cycles : Int
  clients : List Client
  stopped : Bool
deriving DecidableEq, Repr

/-- Environment for one scheduler iteration: the `psl_get_afu_events`
result, whether `psl->job->job` and `psl->mmio->list` are NULL at the
idle-detection check (line 214, after the AFU handling and flush calls), and
the per-slot client environments. -/
structure IterEnv where
  afuEvents : Int
  jobEmpty : Bool
  mmioEmpty : Bool
  clientEnv : Nat → ClientEnv
  clientCmd : Nat → Bool

/-- Result of one execution of the `_psl_loop` body; `broke` records the
`break` on a negative `psl_get_afu_events` result (transport error). -/
structure IterResult where
  psl : Psl
  effects : List Effect
  broke : Bool

/-- Top of the loop body (psl.c lines 186-192): any non-IDLE state resets
the session idle countdown to the maximum and clears the one-time
"stopped" flag. -/
def iterTop (idleMax : Nat) (p : Psl) : Psl :=
  if p.state ≠ PSLSE_IDLE then { p with idle_cycles := (idleMax : Int), stopped := false } else p

/-- One execution of the `_psl_loop` body (psl.c lines 181-243).  With a
nonzero countdown: signal one clock edge, poll AFU events (negative result
breaks the loop before the client pass), handle events and flush outbound
job/MMIO work (external calls), and decrement the countdown when both
queues are empty.  With a zero countdown: set the stopped flag and sleep
instead of clocking.  Either way the client for-loop then runs. -/
def pslIter (idleMax : Nat) (p : Psl) (env : IterEnv) : IterResult :=
  let p := iterTop idleMax p
  if p.idle_cycles ≠ 0 then
    if env.afuEvents < 0 then ⟨p, [Effect.signalClock], true⟩
    else
      let p := if env.jobEmpty && env.mmioEmpty then { p with idle_cycles := p.idle_cycles - 1 }
               else p
      let r := clientPhase idleMax p.idle_cycles p.clients env.clientEnv env.clientCmd 0
      ⟨{ p with idle_cycles := r.pslIdle, clients := r.clients },
        Effect.signalClock :: r.effects, false⟩
  else
    let p := { p with stopped := true }
    let r := clientPhase idleMax p.idle_cycles p.clients env.clientEnv env.clientCmd 0
    ⟨{ p with idle_cycles := r.pslIdle, clients := r.clients },
      Effect.sleep :: r.effects, false⟩

/-- Iterated loop body under a fixed per-iteration environment. -/
def iterN (idleMax : Nat) (n : Nat) (p : Psl) (env : IterEnv) : Psl :=
  match n with
  | 0 => p
  | Nat.succ k => iterN idleMax k (pslIter idleMax p env).psl env

/-- Error kinds of `psl_init` as named by the spec (section 7); the C code
returns -1 on every failure and the kind corresponds to which check failed. -/
inductive InitError where
  | RESOURCE
  | CONFIG
  | CONNECT
  | INIT
deriving DecidableEq, Repr

/-- Resources `psl_init` allocates before starting the worker thread.  The
subsystem records and their embedded locks are allocated by
`job_init`/`mmio_init`/`cmd_init`; their existence is visible in psl.c's own
teardown (lines 265-276), which frees each record and destroys its lock. -/
inductive Resource where
  | pslRec
  | nameStr
  | hostStr
  | pslLock
  | afuEvent
  | jobRec
  | jobLock
  | mmioRec
  | mmioLock
  | cmdRec
  | cmdLock
deriving DecidableEq, Repr

/-- Environment for `psl_init`: the success of each allocation and of each
external initialization step, in program order. -/
structure InitEnv where
  mallocPsl : Bool
  mallocName : Bool
  mallocHost : Bool
  mallocAfu : Bool
  connectOk : Bool
  jobInitOk : Bool
  mmioInitOk : Bool
  cmdInitOk : Bool
  aux1Ok : Bool
  threadOk : Bool
deriving DecidableEq, Repr

/-- Result of `psl_init`: the error (or `none` on success), the session
registry head (a list of session identity strings, newest first), and the
resources left allocated with no owner when the call fails.  On failure the
cleanup labels are: `init_fail_lock` destroys `psl->lock`, then `init_fail`
frees `psl->afu_event`, `psl->host`, `psl->name` and the psl struct itself
(psl.c lines 394-406); neither label frees `psl->job`, `psl->mmio` or
`psl->cmd`, nor destroys their locks.  On success ownership of everything
transfers to the worker thread and `leaked` is empty. -/
structure InitResult where
  err : Option InitError
  head : List (List Char)
  leaked : List Resource
deriving DecidableEq, Repr

/-- Debug identifier derived from the major/minor digits (psl.c lines
313-315). -/
def dbg_id (id : List Char) : Nat :=
  (((id.getD 3 ' ').toNat - '0'.toNat) <<< 4) ||| ((id.getD 5 ' ').toNat - '0'.toNat)

/-- Identity-string validation of `psl_init` (psl.c lines 300-310):
`strlen(id) != 6 || strncmp(id, "afu", 3) || id[4] != '.'` rejects, then
`id[3]` and `id[5]` must each lie in `'0'..'3'`. -/
def validId (id : List Char) : Bool :=
  if id.length ≠ 6 ∨ ¬id.take 3 = ['a', 'f', 'u'] ∨ id.getD 4 ' ' ≠ '.' then false
  else if id.getD 3 ' ' < '0' ∨ '3' < id.getD 3 ' ' then false
  else if id.getD 5 ' ' < '0' ∨ '3' < id.getD 5 ' ' then false
  else true

/-- Claim-side restatement of the identity format, following the spec's
words: exactly 6 characters, the literal prefix "afu", '.' at position 4,
and characters in the range '0'..'3' at positions 3 and 5.  Kept separate
from `validId` (which is translated from the code) so the two can be
compared. -/
def specIdFormat (id : List Char) : Prop :=
  id.length = 6 ∧ id.take 3 = ['a', 'f', 'u'] ∧ id.getD 4 ' ' = '.' ∧
    ('0' ≤ id.getD 3 ' ' ∧ id.getD 3 ' ' ≤ '3') ∧ ('0' ≤ id.getD 5 ' ' ∧ id.getD 5 ' ' ≤ '3')

instance (id : List Char) : Decidable (specIdFormat id) := by
  unfold specIdFormat; infer_instance

/-- `psl_init` (psl.c lines 289-407), with explicit resource accounting on
each failure path.  Registrations of the session into the doubly-linked
registry (lines 386-390) are modelled as inserting the identity string at
the head of a list. -/
def psl_init (id : List Char) (head : List (List Char)) (env : InitEnv) : InitResult :=
  -- malloc of the psl struct fails: goto init_fail with psl == NULL, nothing freed
  if ¬env.mallocPsl then ⟨some InitError.RESOURCE, head, []⟩
  -- invalid afu name: init_fail frees the psl struct; name/host/afu_event are still NULL
  else if id.length ≠ 6 ∨ ¬id.take 3 = ['a', 'f', 'u'] ∨ id.getD 4 ' ' ≠ '.' then
    ⟨some InitError.CONFIG, head, []⟩
  else if id.getD 3 ' ' < '0' ∨ '3' < id.getD 3 ' ' then ⟨some InitError.CONFIG, head, []⟩
  else if id.getD 5 ' ' < '0' ∨ '3' < id.getD 5 ' ' then ⟨some InitError.CONFIG, head, []⟩
  -- name / host string allocations (init_fail frees whichever were allocated)
  else if ¬env.mallocName then ⟨some InitError.RESOURCE, head, []⟩
  else if ¬env.mallocHost then ⟨some InitError.RESOURCE, head, []⟩
  -- pthread_mutex_init(&psl->lock); from here failures go through init_fail_lock
  else if ¬env.mallocAfu then ⟨some InitError.RESOURCE, head, []⟩
  else if ¬env.connectOk then ⟨some InitError.CONNECT, head, []⟩
  else if ¬env.jobInitOk then ⟨some InitError.INIT, head, []⟩
  -- job subsystem now allocated; later failures leak its record and lock
  else if ¬env.mmioInitOk then
    ⟨some InitError.INIT, head, [Resource.jobRec, Resource.jobLock]⟩
  else if ¬env.cmdInitOk then
    ⟨some InitError.INIT, head,
      [Resource.jobRec, Resource.jobLock, Resource.mmioRec, Resource.mmioLock]⟩
  else if ¬env.aux1Ok then
    ⟨some InitError.INIT, head,
      [Resource.jobRec, Resource.jobLock, Resource.mmioRec, Resource.mmioLock,
        Resource.cmdRec, Resource.cmdLock]⟩
  else if ¬env.threadOk then
    ⟨some InitError.INIT, head,
      [Resource.jobRec, Resource.jobLock, Resource.mmioRec, Resource.mmioLock,
        Resource.cmdRec, Resource.cmdLock]⟩
  else ⟨none, id :: head, []⟩

/-- Sample identity string "afu0.0" from the spec's scenarios. -/
def afu00 : List Char := ['a', 'f', 'u', '0', '.', '0']

/-- Sample identity string "afu9.0" from the spec's scenarios (major digit
out of range). -/
def afu90 : List Char := ['a', 'f', 'u', '9', '.', '0']

/-- Environment in which every allocation and external step succeeds. -/
def envAllOk : InitEnv := ⟨true, true, true, true, true, true, true, true, true, true⟩

/-- Environment in which everything succeeds up to `mmio_init`, which
fails. -/
def envMmioFail : InitEnv := { envAllOk with mmioInitOk := false }

/-- Quiescent per-client environment: nothing readable on the socket, no
MMIO completion. -/
def quietEnv : ClientEnv := ⟨false, none, false, none, false, false⟩

/-- Per-client environment in which poll reports data and the one-byte read
returns `PSLSE_DETACH`. -/
def detachEnv : ClientEnv := ⟨true, some PSLSE_DETACH, false, none, false, false⟩

/-- Per-client environment in which the one-byte read returns
`PSLSE_MEM_FAILURE`. -/
def memFailureEnv : ClientEnv := ⟨true, some PSLSE_MEM_FAILURE, false, none, false, false⟩

/-- Valid attached client with countdown zero and no in-flight access
(the C8 scenario start state). -/
def c8Start (fd : Int) : Client := ⟨fd, none, 1, 0, none, false, none, 0⟩

/-- Detaching client with countdown `k` and no in-flight access. -/
def c8Mid (fd : Int) (k : Int) : Client := ⟨fd, none, -1, k, none, false, none, 0⟩

/-- Detaching client holding a non-terminal in-flight memory access (used to
exhibit that the dispatcher still forwards its commands). -/
def exClientDetaching : Client := ⟨7, none, -1, 5, some ⟨0, 0⟩, false, none, 0⟩

/-- Quiescent iteration environment: healthy transport, both outbound
queues empty, nothing readable on any client socket, no command-subsystem
activity. -/
def quietIterEnv : IterEnv := ⟨1, true, true, fun _ => quietEnv, fun _ => false⟩

/-- Iterated quiescent client steps. -/
def quietStepsN (idleMax : Nat) (pslIdle : Int) (n : Nat) (c : Client) : Client :=
  match n with
  | 0 => c
  | Nat.succ k => quietStepsN idleMax pslIdle k (clientStep idleMax pslIdle c quietEnv false).client

/-- Recognizer for acknowledgement-byte writes in an effect trace. -/
def isPutByte : Effect → Bool
  | Effect.putByte _ _ => true
  | _ => false

/-- C3: every `_attach` invocation writes exactly one acknowledgement byte
back to the client: `PSLSE_ATTACH` iff the 8-byte WED read succeeded and the
job start was accepted (in which case the session idle countdown is also
reset to the maximum), `PSLSE_DETACH` on every other path, with the session
countdown unchanged on those failure paths. -/
theorem C3_attach_exactly_one_ack (idleMax : Nat) (pslIdle : Int) (fd : Int)
    (wedRead : Option Nat) (jobAccept : Bool) :
    ((attach idleMax pslIdle fd wedRead jobAccept).effects.filter isPutByte =
      [Effect.putByte fd (attach idleMax pslIdle fd wedRead jobAccept).ack]) ∧
    ((attach idleMax pslIdle fd wedRead jobAccept).ack = PSLSE_ATTACH ↔
      (wedRead ≠ none ∧ jobAccept = true)) ∧
    ((attach idleMax pslIdle fd wedRead jobAccept).ack = PSLSE_ATTACH ∨
      (attach idleMax pslIdle fd wedRead jobAccept).ack = PSLSE_DETACH) ∧
    (wedRead ≠ none → jobAccept = true →
      (attach idleMax pslIdle fd wedRead jobAccept).pslIdle = (idleMax : Int)) ∧
    (¬(wedRead ≠ none ∧ jobAccept = true) →
      (attach idleMax pslIdle fd wedRead jobAccept).pslIdle = pslIdle) := by
  cases wedRead <;> cases jobAccept <;>
    simp [attach, isPutByte, PSLSE_ATTACH, PSLSE_DETACH]

/-- C3 witness: the theorem evaluated at a concrete successful attach and a
concrete rejected job start. -/
theorem C3_attach_exactly_one_ack_witness :
    (attach 20 5 3 (some 1) true).ack = PSLSE_ATTACH ∧
    (attach 20 5 3 (some 1) true).pslIdle = (20 : Int) ∧
    (attach 20 5 3 (some 0) false).pslIdle = (5 : Int) :=
  ⟨(C3_attach_exactly_one_ack 20 5 3 (some 1) true).2.1.mpr (by simp),
   (C3_attach_exactly_one_ack 20 5 3 (some 1) true).2.2.2.1 (by simp) rfl,
   (C3_attach_exactly_one_ack 20 5 3 (some 0) false).2.2.2.2 (by simp)⟩

/-- C6 counterexample: a client that is already INVALID exactly as the claim
describes (fd closed, no address string, no in-flight accesses) but whose
idle countdown is nonzero is NOT left unchanged by `_free`: psl.c line 81
unconditionally writes `client->idle_cycles = 0`, so the record changes.
Such a state is reachable — a read-failure free followed by a `client_cmd`
countdown reset on the same pass (psl.c lines 240-241). -/
theorem C6_free_not_noop_counterexample :
    (⟨-1, none, 0, 3, none, false, none, 0⟩ : Client).valid = 0 ∧
    (⟨-1, none, 0, 3, none, false, none, 0⟩ : Client).fd = -1 ∧
    (⟨-1, none, 0, 3, none, false, none, 0⟩ : Client).ip = none ∧
    (⟨-1, none, 0, 3, none, false, none, 0⟩ : Client).mem_access = none ∧
    (⟨-1, none, 0, 3, none, false, none, 0⟩ : Client).mmio_access = false ∧
    freeClient ⟨-1, none, 0, 3, none, false, none, 0⟩ ≠
      ⟨⟨-1, none, 0, 3, none, false, none, 0⟩, none⟩ ∧
    (freeClient ⟨-1, none, 0, 3, none, false, none, 0⟩).client.idle_cycles = 0 := by
  decide

/-- C6 (amended): releasing an already-INVALID client (fd closed, no address
string, no in-flight accesses) changes nothing except unconditionally
re-zeroing the idle countdown and re-marking a non-null job context
`PSLSE_DONE`; it is a strict no-op exactly when, in addition, the countdown
is already zero and any job context is already terminal.  Releasing a client
holding a non-terminal in-flight memory access force-completes the
referenced record to `MEM_DONE` with the address-error response before the
reference is cleared. -/
theorem C6_free_release_effects :
    (∀ c : Client, c.fd = -1 → c.ip = none → c.valid = 0 →
      c.mem_access = none → c.mmio_access = false →
      freeClient c =
        ⟨{ c with
            idle_cycles := 0
            job := c.job.map (fun j => { j with state := PSLSE_DONE }) }, none⟩) ∧
    (∀ c : Client, c.fd = -1 → c.ip = none → c.valid = 0 → c.idle_cycles = 0 →
      c.mem_access = none → c.mmio_access = false →
      (∀ j, c.job = some j → j.state = PSLSE_DONE) →
      freeClient c = ⟨c, none⟩) ∧
    (∀ (c : Client) (m : CmdEvent), c.mem_access = some m → m.state ≠ MEM_DONE →
      (freeClient c).memFinal = some { state := MEM_DONE, resp := PSL_RESPONSE_AERROR } ∧
      (freeClient c).client.mem_access = none) := by
  refine ⟨?_, ?_, ?_⟩
  · rintro ⟨fd, ip, valid, idle, mem, mmio, job, ctx⟩ hfd hip hvalid hmem hmmio
    simp only at hfd hip hvalid hmem hmmio
    subst hfd hip hvalid hmem hmmio
    simp [freeClient]
  · rintro ⟨fd, ip, valid, idle, mem, mmio, job, ctx⟩ hfd hip hvalid hidle hmem hmmio hjob
    simp only at hfd hip hvalid hidle hmem hmmio
    subst hfd hip hvalid hidle hmem hmmio
    cases job with
    | none => simp [freeClient]
    | some j =>
      have hj : j.state = PSLSE_DONE := hjob j rfl
      cases j
      simp only [JobEvent.mk.injEq] at hj
      simp [freeClient, hj]
  · intro c m hmem hstate
    cases m
    simp only [CmdEvent.mk.injEq] at *
    simp [freeClient, hmem, hstate]

/-- C6 witness: the amended theorem evaluated at an INVALID client with a
nonzero countdown (only the countdown is zeroed), at a strictly-idempotent
concrete client, and at a concrete client holding a non-terminal access. -/
theorem C6_free_release_effects_witness :
    freeClient ⟨-1, none, 0, 3, none, false, none, 0⟩ =
      ⟨⟨-1, none, 0, 0, none, false, none, 0⟩, none⟩ ∧
    freeClient ⟨-1, none, 0, 0, none, false, none, 3⟩ =
      ⟨⟨-1, none, 0, 0, none, false, none, 3⟩, none⟩ ∧
    (freeClient ⟨5, none, 1, 2, some ⟨0, 0⟩, false, none, 0⟩).memFinal =
      some { state := MEM_DONE, resp := PSL_RESPONSE_AERROR } :=
  ⟨C6_free_release_effects.1 ⟨-1, none, 0, 3, none, false, none, 0⟩ rfl rfl rfl rfl rfl,
   C6_free_release_effects.2.1 ⟨-1, none, 0, 0, none, false, none, 3⟩ rfl rfl rfl rfl rfl rfl
     (fun j h => Option.noConfusion h),
   (C6_free_release_effects.2.2 ⟨5, none, 1, 2, some ⟨0, 0⟩, false, none, 0⟩ ⟨0, 0⟩ rfl
     (by decide)).1⟩

/-- C10: `_free` on a client with a non-null job back-reference sets the job
context state to `PSLSE_DONE`, in addition to the documented socket, string
and in-flight-access cleanup. -/
theorem C10_free_terminates_job (c : Client) (j : JobEvent) (h : c.job = some j) :
    (freeClient c).client.job = some { state := PSLSE_DONE } ∧
    (freeClient c).client.fd = -1 ∧
    (freeClient c).client.ip = none ∧
    (freeClient c).client.mem_access = none ∧
    (freeClient c).client.mmio_access = false ∧
    (freeClient c).client.valid = 0 ∧
    (freeClient c).client.idle_cycles = 0 := by
  simp [freeClient, h]

/-- C10 witness: the theorem evaluated at a concrete client with a running
job context. -/
theorem C10_free_terminates_job_witness :
    (freeClient ⟨5, none, 1, 2, none, false, some ⟨13⟩, 0⟩).client.job =
      some { state := PSLSE_DONE } :=
  (C10_free_terminates_job ⟨5, none, 1, 2, none, false, some ⟨13⟩, 0⟩ ⟨13⟩ rfl).1

/-- Any successfully read command byte leaves `_handle_client` with the
client countdown reset to the maximum: psl.c line 169 runs unconditionally
at the end of the dispatch block, whatever the byte value. -/
theorem handleClient_read_resets (idleMax : Nat) (pslIdle : Int) (c : Client)
    (env : ClientEnv) (b : Nat) (hp : env.pollIn = true) (hb : env.readByte = some b) :
    (handleClient idleMax pslIdle c env).client.idle_cycles = (idleMax : Int) := by
  simp [handleClient, hp, hb, dispatchByte]

/-- C9: whenever the dispatcher's one-byte read succeeds, the client idle
countdown is reset to the configured maximum regardless of the byte's value;
a byte matching no known command still resets it. -/
theorem C9_any_byte_resets (idleMax : Nat) (pslIdle : Int) (c : Client)
    (env : ClientEnv) (b : Nat) (hp : env.pollIn = true) (hb : env.readByte = some b) :
    (handleClient idleMax pslIdle c env).client.idle_cycles = (idleMax : Int) :=
  handleClient_read_resets idleMax pslIdle c env b hp hb

/-- C9 witness: the theorem evaluated at a byte (99) matching no known
command. -/
theorem C9_any_byte_resets_witness :
    (handleClient 20 0 (c8Start 7) ⟨true, some 99, false, none, false, false⟩).client.idle_cycles
      = (20 : Int) :=
  C9_any_byte_resets 20 0 (c8Start 7) ⟨true, some 99, false, none, false, false⟩ 99 rfl rfl

/-- Dispatch effects depend on the client only through its file descriptor
(the byte comparisons and subsystem calls never read the other fields). -/
theorem dispatchByte_effects_fd (idleMax : Nat) (pslIdle : Int) (c1 c2 : Client)
    (env : ClientEnv) (b : Nat) (hfd : c1.fd = c2.fd) :
    (dispatchByte idleMax pslIdle c1 env b).effects =
      (dispatchByte idleMax pslIdle c2 env b).effects := by
  simp only [dispatchByte, apply_ite Client.fd]
  simp [hfd]

/-- `_handle_client` produces the same effect trace whatever the client's
validity state holds: no line of psl.c lines 116-171 reads
`client->valid`. -/
theorem handleClient_effects_valid (idleMax : Nat) (pslIdle : Int) (c : Client)
    (env : ClientEnv) (v : Int) :
    (handleClient idleMax pslIdle { c with valid := v } env).effects =
      (handleClient idleMax pslIdle c env).effects := by
  unfold handleClient
  cases hp : env.pollIn
  · simp
  · cases hb : env.readByte with
    | none => simp
    | some b =>
      simp only
      apply dispatchByte_effects_fd
      unfold mmioDonePhase
      by_cases hm : c.mmio_access <;> simp [hm]

/-- The dispatcher leaves a client's validity at -1 (if the byte was DETACH)
or unchanged; it never invalidates a client. -/
theorem dispatchByte_valid (idleMax : Nat) (pslIdle : Int) (c : Client)
    (env : ClientEnv) (b : Nat) :
    (dispatchByte idleMax pslIdle c env b).client.valid = -1 ∨
    (dispatchByte idleMax pslIdle c env b).client.valid = c.valid := by
  simp only [dispatchByte]
  split_ifs <;> simp

/-- Unless the one-byte read fails, `_handle_client` never sets a nonzero
validity to zero. -/
theorem handleClient_valid_ne_zero (idleMax : Nat) (pslIdle : Int) (c : Client)
    (env : ClientEnv) (hv : c.valid ≠ 0)
    (hrf : ¬(env.pollIn = true ∧ env.readByte = none)) :
    (handleClient idleMax pslIdle c env).client.valid ≠ 0 := by
  have hmv : (mmioDonePhase idleMax c env).valid = c.valid := by
    unfold mmioDonePhase
    by_cases hm : c.mmio_access <;> simp [hm]
  cases hp : env.pollIn with
  | false => simpa [handleClient, hp, hmv] using hv
  | true =>
    cases hb : env.readByte with
    | none => exact absurd ⟨hp, hb⟩ hrf
    | some b =>
      simp only [handleClient, hp, hb, if_true]
      rcases dispatchByte_valid idleMax pslIdle (mmioDonePhase idleMax c env) env b with h | h
      · rw [h]; decide
      · rw [h, hmv]; exact hv

/-- C1 counterexample: a DETACHING client (valid = -1) whose one-byte read
yields `PSLSE_MEM_FAILURE` has the byte dispatched to the command subsystem
(`handle_aerror` appears in the effect trace) rather than read and
discarded: psl.c lines 146-149 run without consulting `client->valid`. -/
theorem C1_detaching_dispatch_counterexample :
    exClientDetaching.valid = -1 ∧
    (handleClient PSL_IDLE_CYCLES 20 exClientDetaching memFailureEnv).effects =
      [Effect.cmdAerror] := by
  decide

/-- C1 (amended): the dispatcher never consults the validity state, so a
DETACHING client's MEM_*/MMIO_* bytes are dispatched exactly as a valid
client's (identical effect traces for every value of `valid`); and the
scheduler releases a still-connected client only when, after the dispatcher
pass, it is DETACHING with its countdown already at zero — the one
exception being a failed one-byte read, which frees the client
immediately. -/
theorem C1_detaching_amended (idleMax : Nat) :
    (∀ (pslIdle : Int) (c : Client) (env : ClientEnv) (v : Int),
      (handleClient idleMax pslIdle { c with valid := v } env).effects =
        (handleClient idleMax pslIdle c env).effects) ∧
    (∀ (pslIdle : Int) (c : Client) (env : ClientEnv) (cmdActive : Bool),
      c.valid ≠ 0 →
      (clientStep idleMax pslIdle c env cmdActive).client.valid = 0 →
      (env.pollIn = true ∧ env.readByte = none) ∨
      ((handleClient idleMax pslIdle c env).client.valid < 0 ∧
       (handleClient idleMax pslIdle c env).client.idle_cycles = 0)) := by
  constructor
  · intro pslIdle c env v
    exact handleClient_effects_valid idleMax pslIdle c env v
  · intro pslIdle c env cmdActive hv h0
    by_cases hrf : env.pollIn = true ∧ env.readByte = none
    · exact Or.inl hrf
    · right
      by_cases hrel : (handleClient idleMax pslIdle c env).client.valid < 0 ∧
          (handleClient idleMax pslIdle c env).client.idle_cycles = 0
      · exact hrel
      · exfalso
        unfold clientStep at h0
        rw [if_neg hv] at h0
        simp only [if_neg hrel] at h0
        have hne := handleClient_valid_ne_zero idleMax pslIdle c env hv hrf
        by_cases hd : (handleClient idleMax pslIdle c env).client.idle_cycles ≠ 0 <;>
          by_cases hc : cmdActive <;> simp [hd, hc] at h0 <;> omega

/-- C1 witness: the amended theorem applied at a DETACHING client reading a
MEM_SUCCESS byte — same effects as for a valid client — and at a client
whose dispatcher pass leaves a nonzero countdown. -/
theorem C1_detaching_amended_witness :
    (handleClient 20 5 { c8Start 7 with valid := -1 }
        ⟨true, some PSLSE_MEM_SUCCESS, false, none, false, false⟩).effects =
      (handleClient 20 5 (c8Start 7)
        ⟨true, some PSLSE_MEM_SUCCESS, false, none, false, false⟩).effects :=
  (C1_detaching_amended 20).1 5 (c8Start 7)
    ⟨true, some PSLSE_MEM_SUCCESS, false, none, false, false⟩ (-1)

/-- C8 counterexample: a valid client with countdown zero and no in-flight
access that sends a single DETACH byte is NOT released in that iteration —
the byte resets the countdown (psl.c lines 141 and 169), so the release
check at line 230 fails: the client stays DETACHING with its socket open and
no acknowledgement byte is written. -/
theorem C8_same_iteration_counterexample :
    (c8Start 7).valid = 1 ∧ (c8Start 7).idle_cycles = 0 ∧
    (clientStep PSL_IDLE_CYCLES 0 (c8Start 7) detachEnv false).client.valid = -1 ∧
    (clientStep PSL_IDLE_CYCLES 0 (c8Start 7) detachEnv false).client.fd = 7 ∧
    (clientStep PSL_IDLE_CYCLES 0 (c8Start 7) detachEnv false).effects = [] := by
  decide

/-- One quiescent scheduler pass over a DETACHING client with positive
countdown simply decrements the countdown. -/
theorem c8_quiet_step (idleMax : Nat) (pslIdle : Int) (fd : Int) (j : Nat) :
    clientStep idleMax pslIdle (c8Mid fd ((j : Int) + 1)) quietEnv false =
      ⟨pslIdle, c8Mid fd (j : Int), []⟩ := by
  have h1 : ((j : Int) + 1) ≠ 0 := by omega
  simp [clientStep, handleClient, mmioDonePhase, quietEnv, c8Mid, h1]

/-- Quiescent passes count a DETACHING client's countdown down one per
iteration. -/
theorem c8_quiet_countdown (idleMax : Nat) (pslIdle : Int) (fd : Int) :
    ∀ (k j : Nat), k ≤ j →
      quietStepsN idleMax pslIdle k (c8Mid fd (j : Int)) = c8Mid fd ((j - k : Nat) : Int) := by
  intro k
  induction k with
  | zero => intro j _; simp [quietStepsN]
  | succ n ih =>
    intro j hk
    obtain ⟨j0, rfl⟩ : ∃ j0, j = j0 + 1 := ⟨j - 1, by omega⟩
    have hstep := c8_quiet_step idleMax pslIdle fd j0
    have hcast : ((j0 + 1 : Nat) : Int) = (j0 : Int) + 1 := by push_cast; ring
    calc quietStepsN idleMax pslIdle (n + 1) (c8Mid fd ((j0 + 1 : Nat) : Int))
        = quietStepsN idleMax pslIdle n (c8Mid fd (j0 : Int)) := by
          rw [quietStepsN, hcast, hstep]
      _ = c8Mid fd ((j0 - n : Nat) : Int) := ih j0 (by omega)
      _ = c8Mid fd ((j0 + 1 - (n + 1) : Nat) : Int) := by congr 1; omega

/-- The quiescent pass that finds a DETACHING client's countdown at zero
writes one DETACH acknowledgement byte and frees the client. -/
theorem c8_quiet_release (idleMax : Nat) (pslIdle : Int) (fd : Int) :
    clientStep idleMax pslIdle (c8Mid fd 0) quietEnv false =
      ⟨pslIdle, (freeClient (c8Mid fd 0)).client, [Effect.putByte fd PSLSE_DETACH]⟩ := by
  simp [clientStep, handleClient, mmioDonePhase, quietEnv, c8Mid]

/-- After exactly `j + 1` quiescent passes, a DETACHING client whose
countdown started at `j` has been freed. -/
theorem c8_quiet_releaseN (idleMax : Nat) (pslIdle : Int) (fd : Int) (j : Nat) :
    quietStepsN idleMax pslIdle (j + 1) (c8Mid fd (j : Int)) =
      (freeClient (c8Mid fd 0)).client := by
  induction j with
  | zero =>
    rw [quietStepsN]
    rw [show ((0 : Nat) : Int) = (0 : Int) by norm_num, c8_quiet_release]
    rfl
  | succ n ih =>
    rw [quietStepsN]
    have hcast : ((n + 1 : Nat) : Int) = (n : Int) + 1 := by push_cast; ring
    rw [hcast, c8_quiet_step]
    exact ih

/-- C8 (amended): a valid client with no in-flight access and countdown
zero that sends a single DETACH byte is marked DETACHING with its countdown
reset to the configured maximum `m`, with no acknowledgement yet; if no
further bytes arrive and the command subsystem reports no activity, its
countdown then decrements once per iteration, and in the `m`-th subsequent
iteration — when the countdown has reached zero — the scheduler writes a
single DETACH acknowledgement byte and frees the client, not in the same
iteration that read the byte. -/
theorem C8_detach_release_after_countdown (m : Nat) (hm : 0 < m)
    (pslIdle : Int) (fd : Int) :
    (clientStep m pslIdle (c8Start fd) detachEnv false).client =
      c8Mid fd ((m - 1 : Nat) : Int) ∧
    (clientStep m pslIdle (c8Start fd) detachEnv false).effects = [] ∧
    (∀ k : Nat, k ≤ m - 1 →
      quietStepsN m pslIdle k (c8Mid fd ((m - 1 : Nat) : Int)) =
        c8Mid fd ((m - 1 - k : Nat) : Int)) ∧
    quietStepsN m pslIdle m (c8Mid fd ((m - 1 : Nat) : Int)) =
      (freeClient (c8Mid fd 0)).client ∧
    (clientStep m pslIdle (c8Mid fd 0) quietEnv false).effects =
      [Effect.putByte fd PSLSE_DETACH] := by
  refine ⟨?_, ?_, ?_, ?_, ?_⟩
  · have hmne : (m : Int) ≠ 0 := by omega
    have hcast : ((m - 1 : Nat) : Int) = (m : Int) - 1 := by omega
    simp [clientStep, handleClient, mmioDonePhase, dispatchByte, detachEnv, c8Start, c8Mid,
      PSLSE_DETACH, PSLSE_ATTACH, PSLSE_MEM_FAILURE, PSLSE_MEM_SUCCESS, PSLSE_MMIO_MAP,
      PSLSE_MMIO_WRITE64, PSLSE_MMIO_READ64, PSLSE_MMIO_WRITE32, PSLSE_MMIO_READ32,
      hmne, hcast]
  · have hm0 : m ≠ 0 := by omega
    simp [clientStep, handleClient, mmioDonePhase, dispatchByte, detachEnv, c8Start,
      PSLSE_DETACH, PSLSE_ATTACH, PSLSE_MEM_FAILURE, PSLSE_MEM_SUCCESS, PSLSE_MMIO_MAP,
      PSLSE_MMIO_WRITE64, PSLSE_MMIO_READ64, PSLSE_MMIO_WRITE32, PSLSE_MMIO_READ32, hm0]
  · intro k hk
    exact c8_quiet_countdown m pslIdle fd k (m - 1) hk
  · have h := c8_quiet_releaseN m pslIdle fd (m - 1)
    rwa [show m - 1 + 1 = m by omega] at h
  · rw [c8_quiet_release]

/-- C8 witness: the amended theorem applied at the concrete maximum 2 —
the DETACH pass leaves the client DETACHING with countdown 1, and two
quiescent iterations later the client has been freed. -/
theorem C8_detach_release_after_countdown_witness :
    (clientStep 2 0 (c8Start 7) detachEnv false).client = c8Mid 7 ((2 - 1 : Nat) : Int) ∧
    quietStepsN 2 0 2 (c8Mid 7 ((2 - 1 : Nat) : Int)) = (freeClient (c8Mid 7 0)).client :=
  ⟨(C8_detach_release_after_countdown 2 (by decide) 0 7).1,
   (C8_detach_release_after_countdown 2 (by decide) 0 7).2.2.2.1⟩

/-- The client for-loop leaves a session with only invalid slots entirely
unchanged (every slot is skipped at psl.c line 227). -/
theorem clientPhase_all_invalid (idleMax : Nat) (pslIdle : Int) (cs : List Client)
    (cenv : Nat → ClientEnv) (ccmd : Nat → Bool) (i : Nat)
    (h : ∀ c ∈ cs, c.valid = 0) :
    clientPhase idleMax pslIdle cs cenv ccmd i = ⟨pslIdle, cs, []⟩ := by
  induction cs generalizing pslIdle i with
  | nil => rfl
  | cons c rest ih =>
    have hc : c.valid = 0 := h c (List.mem_cons_self c rest)
    have hrest : ∀ x ∈ rest, x.valid = 0 := fun x hx => h x (List.mem_cons_of_mem _ hx)
    simp [clientPhase, clientStep, hc, ih pslIdle (i + 1) hrest]

/-- One loop pass of an IDLE session with empty queues, a healthy transport
and only invalid client slots: one clock edge is signalled and the countdown
decrements (psl.c lines 194-216). -/
theorem pslIter_idle_decrement (idleMax : Nat) (p : Psl) (env : IterEnv)
    (hstate : p.state = PSLSE_IDLE) (hcl : ∀ c ∈ p.clients, c.valid = 0)
    (hjob : env.jobEmpty = true) (hmmio : env.mmioEmpty = true)
    (hev : 0 ≤ env.afuEvents) (hidle : p.idle_cycles ≠ 0) :
    pslIter idleMax p env =
      ⟨{ p with idle_cycles := p.idle_cycles - 1 }, [Effect.signalClock], false⟩ := by
  have htop : iterTop idleMax p = p := by simp [iterTop, hstate]
  have hev2 : ¬env.afuEvents < 0 := not_lt.mpr hev
  unfold pslIter
  rw [htop, if_pos hidle, if_neg hev2]
  simp [hjob, hmmio, clientPhase_all_invalid idleMax _ _ _ _ _ hcl]

/-- One loop pass of an IDLE session whose countdown is exhausted: the
session sleeps instead of clocking (psl.c lines 217-223). -/
theorem pslIter_idle_sleep (idleMax : Nat) (p : Psl) (env : IterEnv)
    (hstate : p.state = PSLSE_IDLE) (hcl : ∀ c ∈ p.clients, c.valid = 0)
    (hidle : p.idle_cycles = 0) :
    pslIter idleMax p env = ⟨{ p with stopped := true }, [Effect.sleep], false⟩ := by
  have htop : iterTop idleMax p = p := by simp [iterTop, hstate]
  unfold pslIter
  rw [htop]
  simp [hidle, clientPhase_all_invalid idleMax _ _ _ _ _ hcl]

/-- The session-countdown slot of a client step is the one `_handle_client`
produced, whichever way the release check goes. -/
theorem clientStep_pslIdle (idleMax : Nat) (pslIdle : Int) (c : Client)
    (env : ClientEnv) (cmdActive : Bool) (h : c.valid ≠ 0) :
    (clientStep idleMax pslIdle c env cmdActive).pslIdle =
      (handleClient idleMax pslIdle c env).pslIdle := by
  simp only [clientStep, if_neg h]
  split_ifs <;> simp

/-- A successful attach (ATTACH byte, 8-byte WED read, accepted job start)
resets the session idle countdown via `_attach`. -/
theorem handleClient_attach_resets (idleMax : Nat) (pslIdle : Int) (c : Client)
    (env : ClientEnv) (w : Nat) (hp : env.pollIn = true)
    (hb : env.readByte = some PSLSE_ATTACH) (hw : env.attachWed = some w)
    (ha : env.attachJobAccept = true) :
    (handleClient idleMax pslIdle c env).pslIdle = (idleMax : Int) := by
  simp [handleClient, hp, hb, dispatchByte, attach, hw, ha, PSLSE_ATTACH, PSLSE_DETACH]

/-- C2: clock gating — in an IDLE session with both outbound queues empty, a
healthy transport and no client activity, each loop pass signals one clock
edge and decrements the countdown by one; from countdown `n` the countdown
reaches zero after `n` such passes; once it is zero the loop sleeps instead
of signaling a clock edge; and the countdown is reset (so clocking resumes)
by the session leaving the IDLE state or by a client's successful attach. -/
theorem C2_clock_gating (idleMax : Nat) (env : IterEnv)
    (hjob : env.jobEmpty = true) (hmmio : env.mmioEmpty = true)
    (hev : 0 ≤ env.afuEvents) :
    (∀ (p : Psl) (k : Nat), p.state = PSLSE_IDLE → (∀ c ∈ p.clients, c.valid = 0) →
      p.idle_cycles = (k : Int) + 1 →
      (pslIter idleMax p env).psl.idle_cycles = (k : Int) ∧
      Effect.signalClock ∈ (pslIter idleMax p env).effects ∧
      Effect.sleep ∉ (pslIter idleMax p env).effects) ∧
    (∀ (p : Psl) (n : Nat), p.state = PSLSE_IDLE → (∀ c ∈ p.clients, c.valid = 0) →
      p.idle_cycles = (n : Int) →
      (iterN idleMax n p env).idle_cycles = 0) ∧
    (∀ p : Psl, p.state = PSLSE_IDLE → (∀ c ∈ p.clients, c.valid = 0) →
      p.idle_cycles = 0 →
      Effect.sleep ∈ (pslIter idleMax p env).effects ∧
      Effect.signalClock ∉ (pslIter idleMax p env).effects ∧
      (pslIter idleMax p env).psl.idle_cycles = 0) ∧
    (∀ p : Psl, p.state ≠ PSLSE_IDLE → (iterTop idleMax p).idle_cycles = (idleMax : Int)) ∧
    (∀ (p : Psl) (c : Client) (w : Nat), p.state = PSLSE_IDLE → p.idle_cycles = 0 →
      p.clients = [c] → c.valid = 1 →
      (env.clientEnv 0).pollIn = true →
      (env.clientEnv 0).readByte = some PSLSE_ATTACH →
      (env.clientEnv 0).attachWed = some w →
      (env.clientEnv 0).attachJobAccept = true →
      (pslIter idleMax p env).psl.idle_cycles = (idleMax : Int)) := by
  refine ⟨?_, ?_, ?_, ?_, ?_⟩
  · intro p k hstate hcl hidle
    have hne : p.idle_cycles ≠ 0 := by omega
    rw [pslIter_idle_decrement idleMax p env hstate hcl hjob hmmio hev hne]
    refine ⟨?_, by simp, by simp⟩
    simp [hidle]
  · intro p n
    induction n generalizing p with
    | zero => intro _ _ hidle; simpa [iterN] using hidle
    | succ n ih =>
      intro hstate hcl hidle
      have hne : p.idle_cycles ≠ 0 := by omega
      rw [iterN, pslIter_idle_decrement idleMax p env hstate hcl hjob hmmio hev hne]
      exact ih _ hstate hcl (by simp [hidle])
  · intro p hstate hcl hidle
    rw [pslIter_idle_sleep idleMax p env hstate hcl hidle]
    exact ⟨by simp, by simp, by simp [hidle]⟩
  · intro p h
    simp [iterTop, h]
  · intro p c w hstate hidle hclients hvalid hpoll hbyte hwed hacc
    have hv : c.valid ≠ 0 := by omega
    have hstep : (clientStep idleMax 0 c (env.clientEnv 0) (env.clientCmd 0)).pslIdle =
        (idleMax : Int) := by
      rw [clientStep_pslIdle idleMax 0 c (env.clientEnv 0) (env.clientCmd 0) hv]
      exact handleClient_attach_resets idleMax 0 c (env.clientEnv 0) w hpoll hbyte hwed hacc
    have htop : iterTop idleMax p = p := by simp [iterTop, hstate]
    unfold pslIter
    rw [htop]
    simp [hidle, hclients, clientPhase, hstep]

/-- C2 witness: concrete IDLE session with countdown 3 reaches zero after 3
quiescent passes; at zero, the pass sleeps. -/
theorem C2_clock_gating_witness :
    (iterN 20 3 ⟨PSLSE_IDLE, 3, [], false⟩ quietIterEnv).idle_cycles = 0 ∧
    Effect.sleep ∈ (pslIter 20 ⟨PSLSE_IDLE, 0, [], false⟩ quietIterEnv).effects :=
  ⟨(C2_clock_gating 20 quietIterEnv rfl rfl (by decide)).2.1 ⟨PSLSE_IDLE, 3, [], false⟩ 3
      rfl (by simp) (by norm_num),
   ((C2_clock_gating 20 quietIterEnv rfl rfl (by decide)).2.2.1 ⟨PSLSE_IDLE, 0, [], false⟩
      rfl (by simp) rfl).1⟩

/-- `_attach` never makes the session countdown negative. -/
theorem attach_pslIdle_nonneg (idleMax : Nat) (pslIdle : Int) (fd : Int)
    (w : Option Nat) (a : Bool) (h : 0 ≤ pslIdle) :
    0 ≤ (attach idleMax pslIdle fd w a).pslIdle := by
  cases w <;> cases a <;> simp [attach] <;> omega

/-- Byte dispatch never makes the session countdown negative. -/
theorem dispatchByte_pslIdle_nonneg (idleMax : Nat) (pslIdle : Int) (c : Client)
    (env : ClientEnv) (b : Nat) (h : 0 ≤ pslIdle) :
    0 ≤ (dispatchByte idleMax pslIdle c env b).pslIdle := by
  simp only [dispatchByte]
  by_cases hb : b = PSLSE_ATTACH
  · simp only [hb, if_pos rfl]
    exact attach_pslIdle_nonneg _ _ _ _ _ h
  · simp [hb, h]

/-- Byte dispatch always ends with the client countdown at the (cast,
nonnegative) maximum. -/
theorem dispatchByte_client_idle (idleMax : Nat) (pslIdle : Int) (c : Client)
    (env : ClientEnv) (b : Nat) :
    (dispatchByte idleMax pslIdle c env b).client.idle_cycles = (idleMax : Int) := by
  simp [dispatchByte]

/-- `_handle_client` keeps both countdowns nonnegative. -/
theorem handleClient_nonneg (idleMax : Nat) (pslIdle : Int) (c : Client)
    (env : ClientEnv) (hp : 0 ≤ pslIdle) (hc : 0 ≤ c.idle_cycles) :
    0 ≤ (handleClient idleMax pslIdle c env).pslIdle ∧
    0 ≤ (handleClient idleMax pslIdle c env).client.idle_cycles := by
  have hmd : 0 ≤ (mmioDonePhase idleMax c env).idle_cycles := by
    unfold mmioDonePhase
    by_cases hm : c.mmio_access <;> simp [hm] <;> omega
  cases hpoll : env.pollIn with
  | false => constructor <;> simp [handleClient, hpoll] <;> assumption
  | true =>
    cases hb : env.readByte with
    | none =>
      constructor <;> simp [handleClient, hpoll, hb, freeClient]
      exact hp
    | some b =>
      constructor <;> simp only [handleClient, hpoll, hb]
      · simpa using dispatchByte_pslIdle_nonneg idleMax pslIdle
          (mmioDonePhase idleMax c env) env b hp
      · simp [dispatchByte_client_idle]

/-- One client step of the scheduler keeps both countdowns nonnegative. -/
theorem clientStep_nonneg (idleMax : Nat) (pslIdle : Int) (c : Client)
    (env : ClientEnv) (cmdActive : Bool) (hp : 0 ≤ pslIdle) (hc : 0 ≤ c.idle_cycles) :
    0 ≤ (clientStep idleMax pslIdle c env cmdActive).pslIdle ∧
    0 ≤ (clientStep idleMax pslIdle c env cmdActive).client.idle_cycles := by
  by_cases hv : c.valid = 0
  · simpa [clientStep, hv] using ⟨hp, hc⟩
  · obtain ⟨h1, h2⟩ := handleClient_nonneg idleMax pslIdle c env hp hc
    simp only [clientStep, if_neg hv]
    by_cases hrel : (handleClient idleMax pslIdle c env).client.valid < 0 ∧
        (handleClient idleMax pslIdle c env).client.idle_cycles = 0
    · simp only [if_pos hrel]
      exact ⟨h1, by simp [freeClient]⟩
    · simp only [if_neg hrel]
      by_cases hd : (handleClient idleMax pslIdle c env).client.idle_cycles ≠ 0 <;>
        by_cases hca : cmdActive <;>
        simp [hd, hca] <;>
        first
          | (constructor <;> first | exact h1 | omega)
          | exact h1
          | omega

/-- The client for-loop keeps the session countdown and every client
countdown nonnegative. -/
theorem clientPhase_nonneg (idleMax : Nat) (cenv : Nat → ClientEnv) (ccmd : Nat → Bool) :
    ∀ (cs : List Client) (pslIdle : Int) (i : Nat), 0 ≤ pslIdle →
      (∀ c ∈ cs, 0 ≤ c.idle_cycles) →
      0 ≤ (clientPhase idleMax pslIdle cs cenv ccmd i).pslIdle ∧
      ∀ c ∈ (clientPhase idleMax pslIdle cs cenv ccmd i).clients, 0 ≤ c.idle_cycles := by
  intro cs
  induction cs with
  | nil =>
    intro pslIdle i hp _
    simpa [clientPhase] using hp
  | cons c rest ih =>
    intro pslIdle i hp hcs
    obtain ⟨h1, h2⟩ := clientStep_nonneg idleMax pslIdle c (cenv i) (ccmd i) hp
      (hcs c (List.mem_cons_self c rest))
    obtain ⟨h3, h4⟩ := ih (clientStep idleMax pslIdle c (cenv i) (ccmd i)).pslIdle (i + 1) h1
      (fun x hx => hcs x (List.mem_cons_of_mem _ hx))
    refine ⟨by simpa [clientPhase] using h3, ?_⟩
    simp only [clientPhase, List.mem_cons]
    rintro x (rfl | hx)
    · exact h2
    · exact h4 x hx

/-- One full loop pass keeps the session countdown and every client
countdown nonnegative. -/
theorem pslIter_nonneg (idleMax : Nat) (p : Psl) (env : IterEnv)
    (hp : 0 ≤ p.idle_cycles) (hcs : ∀ c ∈ p.clients, 0 ≤ c.idle_cycles) :
    0 ≤ (pslIter idleMax p env).psl.idle_cycles ∧
    ∀ c ∈ (pslIter idleMax p env).psl.clients, 0 ≤ c.idle_cycles := by
  have htop : 0 ≤ (iterTop idleMax p).idle_cycles ∧ (iterTop idleMax p).clients = p.clients := by
    unfold iterTop
    by_cases h : p.state ≠ PSLSE_IDLE <;> simp [h] <;> first | omega | exact hp
  unfold pslIter
  by_cases hq : (iterTop idleMax p).idle_cycles ≠ 0
  · rw [if_pos hq]
    by_cases hev : env.afuEvents < 0
    · rw [if_pos hev]
      exact ⟨htop.1, fun c hc => hcs c (htop.2 ▸ hc)⟩
    · rw [if_neg hev]
      by_cases hqueues : (env.jobEmpty && env.mmioEmpty) = true
      · simp only [hqueues, if_pos rfl]
        have hdec : 0 ≤ (iterTop idleMax p).idle_cycles - 1 := by omega
        obtain ⟨ha, hb⟩ := clientPhase_nonneg idleMax env.clientEnv env.clientCmd
          p.clients ((iterTop idleMax p).idle_cycles - 1) 0 hdec hcs
        constructor
        · simpa [htop.2] using ha
        · intro c hc
          exact hb c (by simpa [htop.2] using hc)
      · simp only [hqueues, if_neg Bool.false_ne_true]
        obtain ⟨ha, hb⟩ := clientPhase_nonneg idleMax env.clientEnv env.clientCmd
          p.clients (iterTop idleMax p).idle_cycles 0 htop.1 hcs
        constructor
        · simpa [htop.2] using ha
        · intro c hc
          exact hb c (by simpa [htop.2] using hc)
  · rw [if_neg hq]
    obtain ⟨ha, hb⟩ := clientPhase_nonneg idleMax env.clientEnv env.clientCmd
      p.clients (iterTop idleMax p).idle_cycles 0 htop.1 hcs
    constructor
    · simpa [htop.2] using ha
    · intro c hc
      exact hb c (by simpa [htop.2] using hc)

/-- C7: neither the session countdown nor any client countdown ever becomes
negative across a loop pass (so, inductively, in any reachable state of the
scheduler loop); the session countdown is reset to the configured maximum
by a successful attach and by the session state being anything other than
IDLE at the top of a pass; a client countdown is reset by any parsed
(successfully read) command byte and by an outstanding/completing MMIO
access. -/
theorem C7_countdowns_nonneg_and_resets (idleMax : Nat) :
    (∀ (p : Psl) (env : IterEnv), 0 ≤ p.idle_cycles → (∀ c ∈ p.clients, 0 ≤ c.idle_cycles) →
      0 ≤ (pslIter idleMax p env).psl.idle_cycles ∧
      ∀ c ∈ (pslIter idleMax p env).psl.clients, 0 ≤ c.idle_cycles) ∧
    (∀ p : Psl, p.state ≠ PSLSE_IDLE → (iterTop idleMax p).idle_cycles = (idleMax : Int)) ∧
    (∀ (pslIdle fd : Int) (w : Nat),
      (attach idleMax pslIdle fd (some w) true).pslIdle = (idleMax : Int)) ∧
    (∀ (pslIdle : Int) (c : Client) (env : ClientEnv) (b : Nat),
      env.pollIn = true → env.readByte = some b →
      (handleClient idleMax pslIdle c env).client.idle_cycles = (idleMax : Int)) ∧
    (∀ (c : Client) (env : ClientEnv), c.mmio_access = true →
      (mmioDonePhase idleMax c env).idle_cycles = (idleMax : Int)) := by
  refine ⟨?_, ?_, ?_, ?_, ?_⟩
  · exact fun p env hp hcs => pslIter_nonneg idleMax p env hp hcs
  · intro p h
    simp [iterTop, h]
  · intro pslIdle fd w
    simp [attach]
  · exact fun pslIdle c env b hp hb => handleClient_read_resets idleMax pslIdle c env b hp hb
  · intro c env h
    simp [mmioDonePhase, h]

/-- C7 witness: the theorem applied at concrete states — a pass over a
session with countdown 5 and one client at countdown 2 stays nonnegative;
a RUNNING session resets at the top of the pass; a concrete successful
attach, a parsed byte and an outstanding MMIO access each reset. -/
theorem C7_countdowns_nonneg_and_resets_witness :
    0 ≤ (pslIter 20 ⟨PSLSE_IDLE, 5, [⟨4, none, 1, 2, none, false, none, 0⟩], false⟩
        quietIterEnv).psl.idle_cycles ∧
    (iterTop 20 ⟨PSLSE_RUNNING, 0, [], true⟩).idle_cycles = (20 : Int) ∧
    (attach 20 0 4 (some 7) true).pslIdle = (20 : Int) ∧
    (handleClient 20 0 (c8Start 4) ⟨true, some 99, false, none, false, false⟩).client.idle_cycles
      = (20 : Int) ∧
    (mmioDonePhase 20 ⟨4, none, 1, 0, none, true, none, 0⟩ quietEnv).idle_cycles = (20 : Int) :=
  ⟨((C7_countdowns_nonneg_and_resets 20).1 ⟨PSLSE_IDLE, 5,
      [⟨4, none, 1, 2, none, false, none, 0⟩], false⟩ quietIterEnv (by norm_num)
      (by intro c hc; simp at hc; rw [hc]; norm_num)).1,
   (C7_countdowns_nonneg_and_resets 20).2.1 ⟨PSLSE_RUNNING, 0, [], true⟩ (by decide),
   (C7_countdowns_nonneg_and_resets 20).2.2.1 0 4 7,
   (C7_countdowns_nonneg_and_resets 20).2.2.2.1 0 (c8Start 4)
     ⟨true, some 99, false, none, false, false⟩ 99 rfl rfl,
   (C7_countdowns_nonneg_and_resets 20).2.2.2.2 ⟨4, none, 1, 0, none, true, none, 0⟩
     quietEnv rfl⟩

/-- `psl_init` when the initial allocation fails: RESOURCE error, nothing
changed, nothing leaked. -/
theorem psl_init_no_malloc (id : List Char) (head : List (List Char)) (env : InitEnv)
    (h : env.mallocPsl = false) :
    psl_init id head env = ⟨some InitError.RESOURCE, head, []⟩ := by
  unfold psl_init
  rw [if_pos (by simp [h])]

/-- `psl_init` rejects an invalid identity with CONFIG once the initial
allocation has succeeded. -/
theorem psl_init_config (id : List Char) (head : List (List Char)) (env : InitEnv)
    (hinv : validId id = false) (hmp : env.mallocPsl = true) :
    psl_init id head env = ⟨some InitError.CONFIG, head, []⟩ := by
  have hA : ¬¬(env.mallocPsl = true) := by simp [hmp]
  unfold validId at hinv
  unfold psl_init
  split_ifs at hinv with h1 h2 h3
  all_goals
    first
      | exact Bool.noConfusion hinv
      | rw [if_neg hA, if_pos h1]
      | rw [if_neg hA, if_neg h1, if_pos h2]
      | rw [if_neg hA, if_neg h1, if_neg h2, if_pos h3]

/-- `psl_init` on a valid identity with every allocation succeeding: only
the connection and the subsequent initialization steps decide the
outcome. -/
theorem psl_init_valid_shape (id : List Char) (head : List (List Char)) (env : InitEnv)
    (hvalid : validId id = true) (hmp : env.mallocPsl = true) (hmn : env.mallocName = true)
    (hmh : env.mallocHost = true) (hma : env.mallocAfu = true) :
    psl_init id head env =
      (if ¬env.connectOk then ⟨some InitError.CONNECT, head, []⟩
       else if ¬env.jobInitOk then ⟨some InitError.INIT, head, []⟩
       else if ¬env.mmioInitOk then
         ⟨some InitError.INIT, head, [Resource.jobRec, Resource.jobLock]⟩
       else if ¬env.cmdInitOk then
         ⟨some InitError.INIT, head,
           [Resource.jobRec, Resource.jobLock, Resource.mmioRec, Resource.mmioLock]⟩
       else if ¬env.aux1Ok then
         ⟨some InitError.INIT, head,
           [Resource.jobRec, Resource.jobLock, Resource.mmioRec, Resource.mmioLock,
             Resource.cmdRec, Resource.cmdLock]⟩
       else if ¬env.threadOk then
         ⟨some InitError.INIT, head,
           [Resource.jobRec, Resource.jobLock, Resource.mmioRec, Resource.mmioLock,
             Resource.cmdRec, Resource.cmdLock]⟩
       else ⟨none, id :: head, []⟩) := by
  have hA : ¬¬(env.mallocPsl = true) := by simp [hmp]
  have hB : ¬¬(env.mallocName = true) := by simp [hmn]
  have hC : ¬¬(env.mallocHost = true) := by simp [hmh]
  have hD : ¬¬(env.mallocAfu = true) := by simp [hma]
  unfold validId at hvalid
  split_ifs at hvalid with h1 h2 h3
  all_goals
    first
      | exact Bool.noConfusion hvalid
      | (unfold psl_init
         rw [if_neg hA, if_neg h1, if_neg h2, if_neg h3, if_neg hB, if_neg hC, if_neg hD])

set_option maxHeartbeats 1600000 in
/-- `psl_init` on a valid identity with the initial allocation succeeding:
the remaining allocations and external steps decide the outcome. -/
theorem psl_init_valid_malloc_shape (id : List Char) (head : List (List Char))
    (env : InitEnv) (hval : validId id = true) (hmp : env.mallocPsl = true) :
    psl_init id head env =
      (if ¬env.mallocName then ⟨some InitError.RESOURCE, head, []⟩
       else if ¬env.mallocHost then ⟨some InitError.RESOURCE, head, []⟩
       else if ¬env.mallocAfu then ⟨some InitError.RESOURCE, head, []⟩
       else if ¬env.connectOk then ⟨some InitError.CONNECT, head, []⟩
       else if ¬env.jobInitOk then ⟨some InitError.INIT, head, []⟩
       else if ¬env.mmioInitOk then
         ⟨some InitError.INIT, head, [Resource.jobRec, Resource.jobLock]⟩
       else if ¬env.cmdInitOk then
         ⟨some InitError.INIT, head,
           [Resource.jobRec, Resource.jobLock, Resource.mmioRec, Resource.mmioLock]⟩
       else if ¬env.aux1Ok then
         ⟨some InitError.INIT, head,
           [Resource.jobRec, Resource.jobLock, Resource.mmioRec, Resource.mmioLock,
             Resource.cmdRec, Resource.cmdLock]⟩
       else if ¬env.threadOk then
         ⟨some InitError.INIT, head,
           [Resource.jobRec, Resource.jobLock, Resource.mmioRec, Resource.mmioLock,
             Resource.cmdRec, Resource.cmdLock]⟩
       else ⟨none, id :: head, []⟩) := by
  have hA : ¬¬(env.mallocPsl = true) := by simp [hmp]
  unfold validId at hval
  split_ifs at hval with h1 h2 h3
  all_goals
    first
      | exact Bool.noConfusion hval
      | (unfold psl_init
         rw [if_neg hA, if_neg h1, if_neg h2, if_neg h3])

set_option maxHeartbeats 1600000 in
/-- C4: the code's identity validation agrees exactly with the claimed
format (6 characters, "afu" prefix, '.' at position 4, digits '0'..'3' at
positions 3 and 5); every string violating it makes `psl_init` fail leaving
the registry head unchanged (with a CONFIG error whenever the initial
allocation succeeded); for conforming strings with all allocations
succeeding, creation succeeds iff the accelerator connection and each
subsequent initialization step succeed; and on success the new session is
the new registry head. -/
theorem C4_identity_validation :
    (∀ id : List Char, validId id = true ↔ specIdFormat id) ∧
    (∀ (id : List Char) (head : List (List Char)) (env : InitEnv), validId id = false →
      (psl_init id head env).err ≠ none ∧ (psl_init id head env).head = head ∧
      (env.mallocPsl = true → (psl_init id head env).err = some InitError.CONFIG)) ∧
    (∀ (id : List Char) (head : List (List Char)) (env : InitEnv), validId id = true →
      env.mallocPsl = true → env.mallocName = true → env.mallocHost = true →
      env.mallocAfu = true →
      ((psl_init id head env).err = none ↔
        (env.connectOk = true ∧ env.jobInitOk = true ∧ env.mmioInitOk = true ∧
         env.cmdInitOk = true ∧ env.aux1Ok = true ∧ env.threadOk = true))) ∧
    (∀ (id : List Char) (head : List (List Char)) (env : InitEnv),
      (psl_init id head env).err = none → (psl_init id head env).head = id :: head) := by
  refine ⟨?_, ?_, ?_, ?_⟩
  · intro id
    unfold validId specIdFormat
    split_ifs with h1 h2 h3
    · simp only [Bool.false_eq_true, false_iff]
      rintro ⟨hl, ht, hd, -, -⟩
      rcases h1 with h | h | h
      · exact h hl
      · exact h ht
      · exact h hd
    · simp only [Bool.false_eq_true, false_iff]
      rintro ⟨-, -, -, ⟨ha, hb⟩, -⟩
      rcases h2 with h | h
      · exact absurd ha (not_le.mpr h)
      · exact absurd hb (not_le.mpr h)
    · simp only [Bool.false_eq_true, false_iff]
      rintro ⟨-, -, -, -, ha, hb⟩
      rcases h3 with h | h
      · exact absurd ha (not_le.mpr h)
      · exact absurd hb (not_le.mpr h)
    · constructor
      · intro _
        push_neg at h1 h2 h3
        exact ⟨h1.1, h1.2.1, h1.2.2, ⟨h2.1, h2.2⟩, ⟨h3.1, h3.2⟩⟩
      · intro _
        rfl
  · intro id head env hinv
    cases hmp : env.mallocPsl with
    | false =>
      rw [psl_init_no_malloc id head env hmp]
      exact ⟨by simp, rfl, fun h => absurd h Bool.false_ne_true⟩
    | true =>
      rw [psl_init_config id head env hinv hmp]
      exact ⟨by simp, rfl, fun _ => rfl⟩
  · intro id head env hvalid hmp hmn hmh hma
    rw [psl_init_valid_shape id head env hvalid hmp hmn hmh hma]
    split_ifs with hc hj hm2 hcm ha ht
    all_goals simp_all
  · intro id head env h
    cases hval : validId id with
    | false =>
      cases hmp : env.mallocPsl with
      | false =>
        rw [psl_init_no_malloc id head env hmp] at h
        exact absurd h (fun hx => Option.noConfusion hx)
      | true =>
        rw [psl_init_config id head env hval hmp] at h
        exact absurd h (fun hx => Option.noConfusion hx)
    | true =>
      cases hmp : env.mallocPsl with
      | false =>
        rw [psl_init_no_malloc id head env hmp] at h
        exact absurd h (fun hx => Option.noConfusion hx)
      | true =>
        rw [psl_init_valid_malloc_shape id head env hval hmp] at h ⊢
        split_ifs at h ⊢ <;>
          first
            | exact absurd h (fun hx => Option.noConfusion hx)
            | rfl

/-- C4 witness: the theorem applied at the spec's concrete scenarios —
"afu0.0" is accepted and becomes the registry head when every step
succeeds; "afu9.0" is rejected with a CONFIG error. -/
theorem C4_identity_validation_witness :
    specIdFormat afu00 ∧
    (psl_init afu90 [] envAllOk).err = some InitError.CONFIG ∧
    (psl_init afu00 [] envAllOk).err = none ∧
    (psl_init afu00 [] envAllOk).head = [afu00] :=
  ⟨(C4_identity_validation.1 afu00).mp (by decide),
   (C4_identity_validation.2.1 afu90 [] envAllOk (by decide)).2.2 rfl,
   (C4_identity_validation.2.2.1 afu00 [] envAllOk (by decide) rfl rfl rfl rfl).mpr
     ⟨rfl, rfl, rfl, rfl, rfl, rfl⟩,
   C4_identity_validation.2.2.2 afu00 [] envAllOk (by decide)⟩

/-- C5: evaluation at the failing input — with every allocation and the
accelerator connection succeeding, `job_init` succeeding and `mmio_init`
failing, `psl_init` returns the failure signal and leaves the registry
unchanged, but the job subsystem record stays allocated and its lock stays
initialized: the cleanup labels (psl.c lines 394-406) free only the
afu_event, host, name and psl struct, never the subsystem records or their
locks, contradicting the claimed full rollback. -/
theorem C5_rollback_leak_eval :
    (psl_init afu00 [] envMmioFail).err = some InitError.INIT ∧
    (psl_init afu00 [] envMmioFail).head = [] ∧
    (psl_init afu00 [] envMmioFail).leaked = [Resource.jobRec, Resource.jobLock] ∧
    (psl_init afu00 [] envMmioFail).leaked ≠ [] := by
  decide

end Pslse
